import Mathlib

/-!
Shallow embedding of the aoscdk-rs installer core (src/disks.rs and
src/network.rs) together with proofs about its specified behaviour.

Machine integers are embedded as `Nat`/`Int` with explicit `% 2 ^ 64`
where the Rust code performs a wrapping `as u64` cast or a `u64`
multiplication.  Rust's stable `sort_by` is embedded as
`List.insertionSort`, which is also stable, applied to the same
comparator.  Fallible Rust functions returning `Result` are embedded as
`Except String`.
-/

namespace AoscDK

/-! ### src/disks.rs : data model and pure helpers -/

def ALLOWED_FS_TYPE : List String := ["ext4", "xfs", "btrfs", "f2fs"]

def DEFAULT_FS_TYPE : String := "ext4"

structure Partition where
  path : Option String
  parent_path : Option String
  fs_type : Option String
  size : Nat
deriving DecidableEq, Repr

/-- Embeds `get_recommended_fs_type`: the Rust `for` loop returns the first
member of `ALLOWED_FS_TYPE` equal to the argument, else `DEFAULT_FS_TYPE`. -/
def get_recommended_fs_type (type_ : String) : String :=
  match ALLOWED_FS_TYPE.find? (fun i => i == type_) with
  | some i => i
  | none => DEFAULT_FS_TYPE

/-- Embeds `fill_fs_type` (the Rust parameter is named `use_ext4`; the spec
calls it `force_default`). -/
def fill_fs_type (part : Partition) (use_ext4 : Bool) : Partition :=
  let new_fs_type : String :=
    match part.fs_type with
    | some fs_type => if !use_ext4 then get_recommended_fs_type fs_type else DEFAULT_FS_TYPE
    | none => DEFAULT_FS_TYPE
  { part with fs_type := some new_fs_type }

/-! ### src/disks.rs : partition enumeration

`list_partitions` walks libparted devices and partition slots.  The external
libparted state is embedded as explicit input data: one `RawDevice` per
enumerated device (with `parts = none` when `Disk::new` fails), one `RawPart`
per partition slot, carrying exactly the fields the code reads. -/

structure RawPart where
  num : Int
  geom_length : Int
  probed_fs : Option String
  part_path : Option String
deriving DecidableEq, Repr

structure RawDevice where
  device_path : String
  sector_size : Nat
  parts : Option (List RawPart)
deriving DecidableEq, Repr

/-- The clamp `if geom_length < 0 { 0 } else { geom_length as u64 }`. -/
def clamp_length (geom_length : Int) : Nat :=
  if geom_length < 0 then 0 else geom_length.toNat

/-- The `Partition` record pushed by `list_partitions` for one kept slot;
`sector_size * part_length` is a wrapping `u64` multiplication. -/
def mk_partition (sector_size : Nat) (device_path : String) (p : RawPart) : Partition :=
  { path := p.part_path
    parent_path := some device_path
    fs_type := p.probed_fs
    size := sector_size * clamp_length p.geom_length % 2 ^ 64 }

/-- Embeds `list_partitions`: slots with a negative partition number are
skipped, devices whose table cannot be opened contribute nothing. -/
def list_partitions (devices : List RawDevice) : List Partition :=
  devices.flatMap fun device =>
    match device.parts with
    | none => []
    | some parts =>
      (parts.filter fun p => !decide (p.num < 0)).map
        (mk_partition device.sector_size device.device_path)

/-! ### src/disks.rs : fstab generation -/

inductive FileSystem
  | Fat32 | Ext4 | Btrfs | Xfs | F2fs | Swap
deriving DecidableEq, Repr

/-- Outcome of `fstab_entries`: `crash` models a Rust panic (`unwrap` on
`None`), `error` models `Err(anyhow!(..))`, `ok` models `Ok(..)`. -/
inductive FstabResult (α : Type)
  | crash : String → FstabResult α
  | error : String → FstabResult α
  | ok : α → FstabResult α
deriving DecidableEq, Repr

/-- Modelled from the spec: the persistent-mount descriptor line built by the
external `fstab_generate::BlockInfo::new` / `write_entry` (not under src/):
identifier, mount point, filesystem type, options, dump flag, pass number.
The spec fixes no numeric dump/pass values; they are carried opaquely. -/
structure BlockEntry where
  id : String
  mount_point : String
  fs : FileSystem
  options : String
  dump : Nat
  pass : Nat
deriving DecidableEq, Repr

/-- The `match fs_type.as_str()` table of `fstab_entries`. -/
def fs_tag_lookup (s : String) : Option (FileSystem × String) :=
  match s with
  | "fat32" => some (.Fat32, "defaults")
  | "ext4" => some (.Ext4, "defaults")
  | "btrfs" => some (.Btrfs, "defaults")
  | "xfs" => some (.Xfs, "defaults")
  | "f2fs" => some (.F2fs, "defaults")
  | "swap" => some (.Swap, "sw")
  | _ => none

/-- Embeds `fstab_entries`.  The external `BlockInfo::get_partition_id`
lookup (device UUID resolution) is passed in as `get_partition_id`. -/
def fstab_entries (get_partition_id : String → FileSystem → Option String)
    (partition : Partition) (mount_path : String) : FstabResult BlockEntry :=
  match partition.path with
  | none => .crash "called Option::unwrap on a None value"
  | some target =>
    match partition.fs_type with
    | none => .error "Could get partition Object!"
    | some fs_type =>
      match fs_tag_lookup fs_type with
      | none => .error "Unsupport fs type!"
      | some (fs, option) =>
        match get_partition_id target fs with
        | none => .error "Could not get partition uuid!"
        | some root_id => .ok ⟨root_id, mount_path, fs, option, 0, 0⟩

/-! ### src/network.rs : data model -/

structure Mirror where
  name : String
  name_tr : String
  loc : String
  loc_tr : String
  url : String
deriving DecidableEq, Repr

structure Tarball where
  arch : String
  date : String
  download_size : Int
  inst_size : Int
  tb_path : String
  sha256sum : String
deriving DecidableEq, Repr

structure Variant where
  name : String
  retro : Bool
  description : String
  description_tr : String
  tarballs : List Tarball
deriving DecidableEq, Repr

structure Bulletin where
  type_ : String
  title : String
  title_tr : String
  body : String
  body_tr : String
deriving DecidableEq, Repr

structure Recipe where
  version : Nat
  bulletin : Bulletin
  variants : List Variant
  mirrors : List Mirror
deriving DecidableEq, Repr

structure VariantEntry where
  name : String
  size : Nat
  install_size : Nat
  date : String
  sha256sum : String
  url : String
deriving DecidableEq, Repr

/-- The wrapping Rust cast `x as u64` applied to an `i64` value. -/
def i64_as_u64 (x : Int) : Nat := (x % 2 ^ 64).toNat

/-- Embeds `get_arch_name`, with the compile-time constant
`std::env::consts::ARCH` passed as the argument. -/
def get_arch_name (arch : String) : Option String :=
  match arch with
  | "x86_64" => some "amd64"
  | "x86" => some "i486"
  | "powerpc" => some "powerpc"
  | "aarch64" => some "arm64"
  | "mips64" => some "loongson3"
  | _ => none

/-! ### String comparison

Rust's `String::cmp` is lexicographic; `chars_le` is an executable
lexicographic `≤` on character lists, proved equivalent to Mathlib's
`String` order so that sort comparators both evaluate on concrete data
and enjoy the linear-order lemmas. -/

def chars_le : List Char → List Char → Bool
  | [], _ => true
  | _ :: _, [] => false
  | c :: cs, d :: ds => if c < d then true else if d < c then false else chars_le cs ds

def str_le (a b : String) : Bool := chars_le a.data b.data

lemma chars_le_iff : ∀ cs ds : List Char, chars_le cs ds = true ↔ ¬ List.Lex (· < ·) ds cs
  | [], ds => by
    constructor
    · intro _ h
      cases h
    · intro _
      rfl
  | c :: cs, [] => by
    simp only [chars_le, Bool.false_eq_true, false_iff, not_not]
    exact List.Lex.nil
  | c :: cs, d :: ds => by
    unfold chars_le
    by_cases h1 : c < d
    · simp only [h1, if_true, true_iff]
      intro h
      cases h with
      | cons h3 => exact lt_irrefl c h1
      | rel h3 => exact lt_asymm h1 h3
    · by_cases h2 : d < c
      · simp only [h1, h2, if_false, if_true, Bool.false_eq_true, false_iff, not_not]
        exact List.Lex.rel h2
      · have hcd : c = d := le_antisymm (le_of_not_lt h2) (le_of_not_lt h1)
        subst hcd
        simp only [h1, h2, if_false, chars_le_iff cs ds]
        constructor
        · intro h hlex
          cases hlex with
          | cons h3 => exact h h3
          | rel h3 => exact h2 h3
        · intro h hlex
          exact h (List.Lex.cons hlex)

lemma str_le_iff (a b : String) : str_le a b = true ↔ a ≤ b := by
  rw [String.le_iff_toList_le, ← not_lt]
  exact chars_le_iff a.data b.data

/-! ### src/network.rs : find_variant_candidates -/

/-- The filter `x.retro == IS_RETRO && !x.tarballs.is_empty() && x.name != "BuildKit"`;
the compile-time constant `IS_RETRO` is passed as `is_retro`. -/
def variant_keep (is_retro : Bool) (x : Variant) : Bool :=
  x.retro == is_retro && !x.tarballs.isEmpty && x.name != "BuildKit"

/-- The comparator `|a, b| b.date.cmp(&a.date)` (descending by date). -/
def date_desc (a b : Tarball) : Prop := b.date ≤ a.date

instance : DecidableRel date_desc := fun a b =>
  decidable_of_iff (str_le b.date a.date = true) (str_le_iff b.date a.date)

instance : IsTotal Tarball date_desc := ⟨fun a b => le_total b.date a.date⟩

instance : IsTrans Tarball date_desc := ⟨fun _ _ _ h₁ h₂ => le_trans h₂ h₁⟩

/-- The comparator `|a, b| a.name.cmp(&b.name)` (ascending by name). -/
def name_asc (a b : VariantEntry) : Prop := a.name ≤ b.name

instance : DecidableRel name_asc := fun a b =>
  decidable_of_iff (str_le a.name b.name = true) (str_le_iff a.name b.name)

instance : IsTotal VariantEntry name_asc := ⟨fun a b => le_total a.name b.name⟩

instance : IsTrans VariantEntry name_asc := ⟨fun _ _ _ h₁ h₂ => le_trans h₁ h₂⟩

/-- The `VariantEntry` pushed for one kept variant from its chosen tarball
(`size`/`install_size` are the wrapping `as u64` casts of the `i64` fields). -/
def project_tarball (name : String) (c : Tarball) : VariantEntry :=
  { name := name
    size := i64_as_u64 c.download_size
    install_size := i64_as_u64 c.inst_size
    date := c.date
    url := c.tb_path
    sha256sum := c.sha256sum }

/-- The per-variant body of the `for` loop: filter the tarballs to the
architecture tag, sort them descending by date (Rust's `sort_by` is stable,
as is `insertionSort`), and project the first one if any survive. -/
def variant_candidate (arch_name : String) (v : Variant) : Option VariantEntry :=
  (List.insertionSort date_desc
    (v.tarballs.filter fun t => t.arch == arch_name)).head?.map
    (project_tarball v.name)

/-- Embeds `find_variant_candidates`, with the compile-time constants
`IS_RETRO` and `ARCH` passed as `is_retro` and `arch`. -/
def find_variant_candidates (is_retro : Bool) (arch : String) (recipes : Recipe) :
    Except String (List VariantEntry) :=
  match get_arch_name arch with
  | none => .error "Unsupported architecture."
  | some arch_name =>
    .ok (List.insertionSort name_asc
      ((recipes.variants.filter (variant_keep is_retro)).filterMap
        (variant_candidate arch_name)))

/-! ### src/network.rs : speedtest_mirrors

Each `get_mirror_speed_score` task performs network I/O; its outcome is
embedded as an `Option ℚ` (`some t` = the download passed the checksum
in `t` seconds, `none` = transport error, timeout or checksum mismatch).
`futures::future::join_all` yields one outcome per mirror, in order, so the
outcomes are a list `results` indexed like `mirrors`. -/

/-- The comparator `|(_, a), (_, b)| a.partial_cmp(b).unwrap()` (ascending by
score; elapsed seconds are never NaN so `unwrap` cannot fail). -/
def score_asc (a b : String × ℚ) : Prop := a.2 ≤ b.2

instance : DecidableRel score_asc := fun a b =>
  inferInstanceAs (Decidable (a.2 ≤ b.2))

instance : IsTotal (String × ℚ) score_asc := ⟨fun a b => le_total a.2 b.2⟩

instance : IsTrans (String × ℚ) score_asc := ⟨fun _ _ _ h₁ h₂ => le_trans h₁ h₂⟩

/-- The accumulation loop: `speedtest_mirror.push((mirrors[index].loc_tr, score))`
for every index whose probe returned `Ok(score)`. -/
def speedtest_mirror_scores (mirrors : List Mirror) (results : List (Option ℚ)) :
    List (String × ℚ) :=
  (mirrors.zip results).filterMap fun p => p.2.map fun score => (p.1.loc_tr, score)

/-- `mirrors.iter().position(|x| x.loc_tr == name).unwrap()` followed by
`mirrors[index]`.  The `unwrap` cannot fail because every recorded name is the
`loc_tr` of some input mirror, so the `getD` default is never reached. -/
def mirror_by_loc_tr (mirrors : List Mirror) (name : String) : Mirror :=
  (mirrors.find? fun x => x.loc_tr == name).getD ⟨"", "", "", "", ""⟩

/-- Embeds `speedtest_mirrors`: survivors are sorted ascending by score
(stable `sort_by` = stable `insertionSort`) and matched back to their
original records by `loc_tr`. -/
def speedtest_mirrors (mirrors : List Mirror) (results : List (Option ℚ)) :
    List Mirror :=
  (List.insertionSort score_asc (speedtest_mirror_scores mirrors results)).map
    fun p => mirror_by_loc_tr mirrors p.1

/-- The surviving mirrors paired with their scores, in input order; the
reference point for what `speedtest_mirrors` should return. -/
def survivors (mirrors : List Mirror) (results : List (Option ℚ)) :
    List (Mirror × ℚ) :=
  (mirrors.zip results).filterMap fun p => p.2.map fun score => (p.1, score)

/-! ### Theorems about the FilesystemProvisioner claims -/

lemma get_recommended_mem {s : String} (h : s ∈ ALLOWED_FS_TYPE) :
    get_recommended_fs_type s = s := by
  fin_cases h <;> rfl

lemma get_recommended_not_mem {s : String} (h : s ∉ ALLOWED_FS_TYPE) :
    get_recommended_fs_type s = DEFAULT_FS_TYPE := by
  unfold get_recommended_fs_type
  have hfind : ALLOWED_FS_TYPE.find? (fun i => i == s) = none := by
    rw [List.find?_eq_none]
    intro x hx
    simp only [beq_iff_eq]
    rintro rfl
    exact h hx
  rw [hfind]

/-- C5: `get_recommended_fs_type s = s` iff `s` is in the allowed set
{ext4, xfs, btrfs, f2fs}; for any other string the result is "ext4".
Totality over all strings is inherent in the Lean function being total. -/
theorem get_recommended_fs_type_spec (s : String) :
    (get_recommended_fs_type s = s ↔ s ∈ ALLOWED_FS_TYPE) ∧
    (s ∉ ALLOWED_FS_TYPE → get_recommended_fs_type s = "ext4") := by
  constructor
  · constructor
    · intro heq
      by_contra hmem
      have := get_recommended_not_mem hmem
      rw [heq] at this
      subst this
      exact hmem (by decide)
    · exact get_recommended_mem
  · intro hmem
    exact get_recommended_not_mem hmem

/-- Witness for C5 at the concrete input "ext2". -/
theorem get_recommended_fs_type_spec_witness :
    get_recommended_fs_type "ext2" = "ext4" :=
  (get_recommended_fs_type_spec "ext2").2 (by decide)

/-- C6: with `use_ext4 = true` the result's fs_type is always "ext4"; with
`use_ext4 = false` it is `get_recommended_fs_type` of the partition's
fs_type when one is named, and the default "ext4" when it is `none`. -/
theorem fill_fs_type_spec (p : Partition) :
    (fill_fs_type p true).fs_type = some "ext4" ∧
    (fill_fs_type p false).fs_type =
      some (match p.fs_type with
            | some t => get_recommended_fs_type t
            | none => "ext4") := by
  constructor
  · unfold fill_fs_type
    cases p.fs_type <;> rfl
  · unfold fill_fs_type
    cases p.fs_type <;> rfl

/-- C7: `fill_fs_type` is pure (its input is immutable in the embedding) and
changes at most the `fs_type` field: `path`, `parent_path` and `size` of the
result equal those of the input, for both values of `use_ext4`. -/
theorem fill_fs_type_frame (p : Partition) (b : Bool) :
    (fill_fs_type p b).path = p.path ∧
    (fill_fs_type p b).parent_path = p.parent_path ∧
    (fill_fs_type p b).size = p.size := by
  unfold fill_fs_type
  exact ⟨rfl, rfl, rfl⟩

/-- Witness for C7 at a concrete partition. -/
theorem fill_fs_type_frame_witness :
    (fill_fs_type ⟨some "/dev/sda1", some "/dev/sda", none, 42⟩ false).path = some "/dev/sda1" ∧
    (fill_fs_type ⟨some "/dev/sda1", some "/dev/sda", none, 42⟩ false).parent_path = some "/dev/sda" ∧
    (fill_fs_type ⟨some "/dev/sda1", some "/dev/sda", none, 42⟩ false).size = 42 :=
  fill_fs_type_frame ⟨some "/dev/sda1", some "/dev/sda", none, 42⟩ false

/-! ### Theorems about the FstabBuilder claims -/

lemma fs_tag_lookup_none_iff (s : String) :
    fs_tag_lookup s = none ↔ s ∉ ["fat32", "ext4", "btrfs", "xfs", "f2fs", "swap"] := by
  unfold fs_tag_lookup
  split
  · simp
  · simp
  · simp
  · simp
  · simp
  · simp
  · rename_i h1 h2 h3 h4 h5 h6
    constructor
    · intro _
      simp only [List.mem_cons, List.not_mem_nil, or_false, not_or]
      exact ⟨h1, h2, h3, h4, h5, h6⟩
    · intro _
      rfl

lemma fstab_entries_eq (get_partition_id : String → FileSystem → Option String)
    (partition : Partition) (mount_path target fs : String)
    (hpath : partition.path = some target) (hfs : partition.fs_type = some fs) :
    fstab_entries get_partition_id partition mount_path =
      match fs_tag_lookup fs with
      | none => .error "Unsupport fs type!"
      | some (fs', opt) =>
        match get_partition_id target fs' with
        | none => .error "Could not get partition uuid!"
        | some root_id => .ok ⟨root_id, mount_path, fs', opt, 0, 0⟩ := by
  unfold fstab_entries
  rw [hpath, hfs]

lemma fs_tag_lookup_some (s : String) (fs : FileSystem) (opt : String)
    (h : fs_tag_lookup s = some (fs, opt)) :
    opt = (if s = "swap" then "sw" else "defaults") ∧
    s ∈ ["fat32", "ext4", "btrfs", "xfs", "f2fs", "swap"] := by
  unfold fs_tag_lookup at h
  split at h <;> simp_all

/-- C9: with the partition's path and filesystem tag both set,
`fstab_entries` yields the UnsupportedFsType error exactly when the tag is
outside {fat32, ext4, btrfs, xfs, f2fs, swap}; whenever it produces a
mount-descriptor line, the tag is inside the set and the options string is
"sw" for swap and "defaults" otherwise, with the requested mount point. -/
theorem fstab_entries_fs_table
    (get_partition_id : String → FileSystem → Option String)
    (partition : Partition) (mount_path target fs : String)
    (hpath : partition.path = some target) (hfs : partition.fs_type = some fs) :
    (fstab_entries get_partition_id partition mount_path = .error "Unsupport fs type!" ↔
      fs ∉ ["fat32", "ext4", "btrfs", "xfs", "f2fs", "swap"]) ∧
    (∀ e : BlockEntry, fstab_entries get_partition_id partition mount_path = .ok e →
      fs ∈ ["fat32", "ext4", "btrfs", "xfs", "f2fs", "swap"] ∧
      e.options = (if fs = "swap" then "sw" else "defaults") ∧
      e.mount_point = mount_path) := by
  rw [fstab_entries_eq get_partition_id partition mount_path target fs hpath hfs]
  cases hlook : fs_tag_lookup fs with
  | none =>
    refine ⟨⟨fun _ => (fs_tag_lookup_none_iff fs).mp hlook, fun _ => rfl⟩, ?_⟩
    intro e he
    cases he
  | some pr =>
    obtain ⟨fs', opt⟩ := pr
    obtain ⟨hopt, hmem⟩ := fs_tag_lookup_some fs fs' opt hlook
    dsimp only
    cases hid : get_partition_id target fs' with
    | none =>
      refine ⟨⟨fun he => ?_, fun hmem' => absurd hmem hmem'⟩, ?_⟩
      · injection he with h
        exact absurd h (by decide)
      · intro e he
        exact FstabResult.noConfusion he
    | some root_id =>
      refine ⟨⟨fun he => ?_, fun hmem' => absurd hmem hmem'⟩, ?_⟩
      · exact FstabResult.noConfusion he
      · intro e he
        injection he with h
        subst h
        exact ⟨hmem, hopt, rfl⟩

/-- Witness for C9 at a concrete swap partition with a resolvable id. -/
theorem fstab_entries_fs_table_witness :
    (fstab_entries (fun _ _ => some "UUID=abc")
        ⟨some "/dev/sda2", none, some "swap", 0⟩ "/mnt" = .error "Unsupport fs type!" ↔
      "swap" ∉ ["fat32", "ext4", "btrfs", "xfs", "f2fs", "swap"]) ∧
    (∀ e : BlockEntry, fstab_entries (fun _ _ => some "UUID=abc")
        ⟨some "/dev/sda2", none, some "swap", 0⟩ "/mnt" = .ok e →
      "swap" ∈ ["fat32", "ext4", "btrfs", "xfs", "f2fs", "swap"] ∧
      e.options = (if "swap" = "swap" then "sw" else "defaults") ∧
      e.mount_point = "/mnt") :=
  fstab_entries_fs_table (fun _ _ => some "UUID=abc")
    ⟨some "/dev/sda2", none, some "swap", 0⟩ "/mnt" "/dev/sda2" "swap" rfl rfl

/-- C10: with the path set but the filesystem tag absent, `fstab_entries`
returns the dedicated error (no Rust panic is reached and no descriptor
line is produced), and that error is distinct from the UnsupportedFsType
error used for unrecognized tags. -/
theorem fstab_entries_none_fs_type
    (get_partition_id : String → FileSystem → Option String)
    (partition : Partition) (mount_path target : String)
    (hpath : partition.path = some target) (hfs : partition.fs_type = none) :
    fstab_entries get_partition_id partition mount_path =
      .error "Could get partition Object!" ∧
    ("Could get partition Object!" : String) ≠ "Unsupport fs type!" ∧
    (∀ s, fstab_entries get_partition_id partition mount_path ≠ .crash s) ∧
    (∀ e, fstab_entries get_partition_id partition mount_path ≠ .ok e) := by
  have h : fstab_entries get_partition_id partition mount_path =
      .error "Could get partition Object!" := by
    unfold fstab_entries
    rw [hpath, hfs]
  refine ⟨h, by decide, ?_, ?_⟩
  · intro s hs
    rw [h] at hs
    cases hs
  · intro e he
    rw [h] at he
    cases he

/-- Witness for C10 at a concrete unprobed partition. -/
theorem fstab_entries_none_fs_type_witness :
    fstab_entries (fun _ _ => some "UUID=abc") ⟨some "/dev/sda3", none, none, 0⟩ "/mnt" =
      .error "Could get partition Object!" ∧
    ("Could get partition Object!" : String) ≠ "Unsupport fs type!" ∧
    (∀ s, fstab_entries (fun _ _ => some "UUID=abc")
      ⟨some "/dev/sda3", none, none, 0⟩ "/mnt" ≠ .crash s) ∧
    (∀ e, fstab_entries (fun _ _ => some "UUID=abc")
      ⟨some "/dev/sda3", none, none, 0⟩ "/mnt" ≠ .ok e) :=
  fstab_entries_none_fs_type (fun _ _ => some "UUID=abc")
    ⟨some "/dev/sda3", none, none, 0⟩ "/mnt" "/dev/sda3" rfl rfl

/-! ### Theorems about the PartitionCatalog claim -/

/-- C8 (amended): every partition slot kept by `list_partitions` contributes a
record whose size is exactly `sector_size * clamp_length geom_length` whenever
that product fits in a `u64`, and a negative geometry length always yields
size exactly 0; the unamended "never wrapped" reading fails, see
`list_partitions_wrap_cx`. -/
theorem list_partitions_size_spec (devices : List RawDevice) (d : RawDevice)
    (hd : d ∈ devices) (parts : List RawPart) (hparts : d.parts = some parts)
    (p : RawPart) (hp : p ∈ parts) (hnum : ¬ p.num < 0)
    (hfit : d.sector_size * clamp_length p.geom_length < 2 ^ 64) :
    mk_partition d.sector_size d.device_path p ∈ list_partitions devices ∧
    (mk_partition d.sector_size d.device_path p).size =
      d.sector_size * clamp_length p.geom_length ∧
    (p.geom_length < 0 → (mk_partition d.sector_size d.device_path p).size = 0) := by
  refine ⟨?_, ?_, ?_⟩
  · unfold list_partitions
    rw [List.mem_flatMap]
    refine ⟨d, hd, ?_⟩
    rw [hparts]
    exact List.mem_map_of_mem _ (List.mem_filter.mpr ⟨hp, by simpa using hnum⟩)
  · show d.sector_size * clamp_length p.geom_length % 2 ^ 64 = _
    exact Nat.mod_eq_of_lt hfit
  · intro hneg
    show d.sector_size * clamp_length p.geom_length % 2 ^ 64 = 0
    unfold clamp_length
    rw [if_pos hneg]
    simp

/-- Witness for C8 at a concrete device with one negative-length slot. -/
theorem list_partitions_size_spec_witness :
    mk_partition 512 "/dev/sda" ⟨1, -7, none, some "/dev/sda1"⟩ ∈
      list_partitions [⟨"/dev/sda", 512, some [⟨1, -7, none, some "/dev/sda1"⟩]⟩] ∧
    (mk_partition 512 "/dev/sda" ⟨1, -7, none, some "/dev/sda1"⟩).size =
      512 * clamp_length (-7) ∧
    ((-7 : Int) < 0 → (mk_partition 512 "/dev/sda" ⟨1, -7, none, some "/dev/sda1"⟩).size = 0) :=
  list_partitions_size_spec [⟨"/dev/sda", 512, some [⟨1, -7, none, some "/dev/sda1"⟩]⟩]
    ⟨"/dev/sda", 512, some [⟨1, -7, none, some "/dev/sda1"⟩]⟩ (by decide)
    [⟨1, -7, none, some "/dev/sda1"⟩] rfl ⟨1, -7, none, some "/dev/sda1"⟩ (by decide)
    (by decide) (by decide)

def wrap_part : RawPart := ⟨1, 2 ^ 32, none, some "/dev/sda1"⟩

def wrap_device : RawDevice := ⟨"/dev/sda", 2 ^ 32, some [wrap_part]⟩

/-- Counterexample for C8 as stated: on a (physically absurd) device with
sector size `2^32` and geometry length `2^32`, the `u64` product wraps to 0,
so the reported size is not `sector_size × clamped length`. -/
theorem list_partitions_wrap_cx :
    (list_partitions [wrap_device]).map Partition.size = [0] ∧
    wrap_device.sector_size * clamp_length wrap_part.geom_length = 2 ^ 64 := by
  constructor
  · decide
  · decide

/-! ### Theorems about the VariantResolver claims -/

lemma variant_candidate_name (a : String) (v : Variant) (e : VariantEntry)
    (h : variant_candidate a v = some e) : e.name = v.name := by
  unfold variant_candidate at h
  cases hh : (List.insertionSort date_desc
      (v.tarballs.filter fun t => t.arch == a)).head? with
  | none =>
    rw [hh] at h
    cases h
  | some c =>
    rw [hh] at h
    injection h with h
    rw [← h]
    rfl

/-- If `variant_candidate` keeps a variant, the produced entry projects an
architecture-matching tarball of that variant with a maximal date string. -/
lemma variant_candidate_some (a : String) (v : Variant) (e : VariantEntry)
    (h : variant_candidate a v = some e) :
    ∃ c ∈ v.tarballs, c.arch = a ∧ e = project_tarball v.name c ∧
      ∀ t ∈ v.tarballs, t.arch = a → t.date ≤ c.date := by
  unfold variant_candidate at h
  cases hh : (List.insertionSort date_desc
      (v.tarballs.filter fun t => t.arch == a)).head? with
  | none =>
    rw [hh] at h
    cases h
  | some c =>
    rw [hh] at h
    injection h with h
    obtain ⟨rest, hrest⟩ : ∃ rest, List.insertionSort date_desc
        (v.tarballs.filter fun t => t.arch == a) = c :: rest := by
      cases hl : List.insertionSort date_desc (v.tarballs.filter fun t => t.arch == a) with
      | nil =>
        rw [hl] at hh
        cases hh
      | cons x xs =>
        rw [hl] at hh
        injection hh with hx
        exact ⟨xs, by rw [hx]⟩
    have hperm := List.perm_insertionSort date_desc
      (v.tarballs.filter fun t => t.arch == a)
    have hcmem : c ∈ v.tarballs.filter fun t => t.arch == a :=
      hperm.subset (hrest ▸ List.mem_cons_self c rest)
    obtain ⟨hcmem', hcarch⟩ := List.mem_filter.mp hcmem
    have hsorted := List.sorted_insertionSort date_desc
      (v.tarballs.filter fun t => t.arch == a)
    rw [hrest] at hsorted
    refine ⟨c, hcmem', by simpa using hcarch, h.symm, ?_⟩
    intro t ht hta
    have htf : t ∈ v.tarballs.filter fun t => t.arch == a :=
      List.mem_filter.mpr ⟨ht, by simpa using hta⟩
    have hts : t ∈ c :: rest := hrest ▸ hperm.symm.subset htf
    rcases List.mem_cons.mp hts with rfl | htr
    · exact le_refl t.date
    · exact List.rel_of_sorted_cons hsorted t htr

/-- Names of produced entries form a sublist of the names of the variants
they are drawn from. -/
lemma filterMap_candidate_names_sublist (a : String) :
    ∀ l : List Variant,
      ((l.filterMap (variant_candidate a)).map VariantEntry.name).Sublist
        (l.map Variant.name)
  | [] => List.Sublist.refl []
  | v :: t => by
    rw [List.filterMap_cons]
    cases hc : variant_candidate a v with
    | none =>
      exact (filterMap_candidate_names_sublist a t).cons v.name
    | some e =>
      rw [List.map_cons, List.map_cons, variant_candidate_name a v e hc]
      exact (filterMap_candidate_names_sublist a t).cons₂ v.name

/-- C4: a variant with an empty tarball list, or named "BuildKit", or whose
retro flag differs from the build's, contributes nothing to
`find_variant_candidates`: deleting it from the recipe leaves the result
unchanged, whatever its tarballs' architectures. -/
theorem find_variant_candidates_drops_excluded
    (is_retro : Bool) (arch : String) (v : Variant) (l1 l2 : List Variant)
    (version : Nat) (bulletin : Bulletin) (mirrors : List Mirror)
    (hbad : v.tarballs = [] ∨ v.name = "BuildKit" ∨ v.retro ≠ is_retro) :
    find_variant_candidates is_retro arch ⟨version, bulletin, l1 ++ v :: l2, mirrors⟩ =
      find_variant_candidates is_retro arch ⟨version, bulletin, l1 ++ l2, mirrors⟩ := by
  have hkeep : variant_keep is_retro v = false := by
    unfold variant_keep
    rcases hbad with h | h | h
    · simp [h]
    · simp [h]
    · simp [h]
  have hfil : (l1 ++ v :: l2).filter (variant_keep is_retro) =
      (l1 ++ l2).filter (variant_keep is_retro) := by
    rw [List.filter_append, List.filter_append, List.filter_cons, hkeep]
    simp
  unfold find_variant_candidates
  cases get_arch_name arch with
  | none => rfl
  | some arch_name =>
    show Except.ok (List.insertionSort name_asc
        (((l1 ++ v :: l2).filter (variant_keep is_retro)).filterMap
          (variant_candidate arch_name))) = _
    rw [hfil]

/-- Witness for C4: deleting a "BuildKit" variant with a matching tarball
leaves the result unchanged. -/
theorem find_variant_candidates_drops_excluded_witness :
    find_variant_candidates false "x86_64"
        ⟨0, ⟨"", "", "", "", ""⟩,
          [] ++ ⟨"BuildKit", false, "", "", [⟨"amd64", "2023-01-01", 1, 1, "p", "s"⟩]⟩ ::
            [⟨"Core", false, "", "", [⟨"amd64", "2023-01-01", 1, 1, "p", "s"⟩]⟩], []⟩ =
      find_variant_candidates false "x86_64"
        ⟨0, ⟨"", "", "", "", ""⟩,
          [] ++ [⟨"Core", false, "", "", [⟨"amd64", "2023-01-01", 1, 1, "p", "s"⟩]⟩], []⟩ :=
  find_variant_candidates_drops_excluded false "x86_64"
    ⟨"BuildKit", false, "", "", [⟨"amd64", "2023-01-01", 1, 1, "p", "s"⟩]⟩
    [] [⟨"Core", false, "", "", [⟨"amd64", "2023-01-01", 1, 1, "p", "s"⟩]⟩]
    0 ⟨"", "", "", "", ""⟩ [] (Or.inr (Or.inl rfl))

/-- C2 (amended): provided the recipe's variant names are pairwise distinct,
no two entries of `find_variant_candidates` share a name; without that
proviso the claim fails, see `find_variant_candidates_dup_names_cx`. -/
theorem find_variant_candidates_nodup_names
    (is_retro : Bool) (arch : String) (recipe : Recipe)
    (hnd : (recipe.variants.map Variant.name).Nodup)
    (out : List VariantEntry)
    (hout : find_variant_candidates is_retro arch recipe = .ok out) :
    (out.map VariantEntry.name).Nodup := by
  unfold find_variant_candidates at hout
  cases harch : get_arch_name arch with
  | none =>
    rw [harch] at hout
    cases hout
  | some arch_name =>
    rw [harch] at hout
    injection hout with hout
    have h1 : ((((recipe.variants.filter (variant_keep is_retro)).filterMap
        (variant_candidate arch_name))).map VariantEntry.name).Sublist
          (recipe.variants.map Variant.name) :=
      (filterMap_candidate_names_sublist arch_name _).trans
        ((List.filter_sublist _).map Variant.name)
    have h2 : (((recipe.variants.filter (variant_keep is_retro)).filterMap
        (variant_candidate arch_name)).map VariantEntry.name).Nodup :=
      h1.nodup hnd
    have hperm : (out.map VariantEntry.name).Perm
        (((recipe.variants.filter (variant_keep is_retro)).filterMap
          (variant_candidate arch_name)).map VariantEntry.name) := by
      rw [← hout]
      exact (List.perm_insertionSort name_asc _).map VariantEntry.name
    exact hperm.nodup_iff.mpr h2

/-- Witness for C2 at a two-variant recipe with distinct names. -/
theorem find_variant_candidates_nodup_names_witness :
    ([project_tarball "Base" ⟨"amd64", "2023-01-01", 1, 1, "p", "s"⟩,
      project_tarball "Core" ⟨"amd64", "2023-02-01", 2, 2, "q", "t"⟩].map
        VariantEntry.name).Nodup :=
  find_variant_candidates_nodup_names false "x86_64"
    ⟨0, ⟨"", "", "", "", ""⟩,
      [⟨"Core", false, "", "", [⟨"amd64", "2023-02-01", 2, 2, "q", "t"⟩]⟩,
       ⟨"Base", false, "", "", [⟨"amd64", "2023-01-01", 1, 1, "p", "s"⟩]⟩], []⟩
    (by decide)
    [project_tarball "Base" ⟨"amd64", "2023-01-01", 1, 1, "p", "s"⟩,
     project_tarball "Core" ⟨"amd64", "2023-02-01", 2, 2, "q", "t"⟩]
    (by rfl)

def dup_name_recipe : Recipe :=
  ⟨0, ⟨"", "", "", "", ""⟩,
    [⟨"Core", false, "", "", [⟨"amd64", "2023-01-01", 1, 1, "p", "s"⟩]⟩,
     ⟨"Core", false, "", "", [⟨"amd64", "2023-02-01", 2, 2, "q", "t"⟩]⟩], []⟩

/-- Counterexample for C2 as stated: a recipe holding two distinct variants
that share the name "Core" produces two entries with the same name. -/
theorem find_variant_candidates_dup_names_cx :
    (find_variant_candidates false "x86_64" dup_name_recipe).toOption =
      some [project_tarball "Core" ⟨"amd64", "2023-01-01", 1, 1, "p", "s"⟩,
            project_tarball "Core" ⟨"amd64", "2023-02-01", 2, 2, "q", "t"⟩] ∧
    ¬ ([project_tarball "Core" ⟨"amd64", "2023-01-01", 1, 1, "p", "s"⟩,
        project_tarball "Core" ⟨"amd64", "2023-02-01", 2, 2, "q", "t"⟩].map
          VariantEntry.name).Nodup := by
  constructor
  · decide
  · decide

def example_recipe : Recipe :=
  ⟨0, ⟨"", "", "", "", ""⟩,
    [⟨"Core", false, "", "",
      [⟨"amd64", "2023-01-01", 1, 1, "p", "s"⟩,
       ⟨"amd64", "2023-02-01", 2, 2, "q", "t"⟩]⟩], []⟩

/-- C3: on a supported architecture every produced entry projects an
architecture-matching tarball of maximal (lexicographically greatest) date
of some kept variant, the result is sorted ascending by name, and the
spec's concrete example yields exactly one "Core" entry dated
"2023-02-01". -/
theorem find_variant_candidates_newest
    (is_retro : Bool) (arch arch_name : String) (recipe : Recipe)
    (harch : get_arch_name arch = some arch_name)
    (out : List VariantEntry)
    (hout : find_variant_candidates is_retro arch recipe = .ok out) :
    (∀ e ∈ out, ∃ v ∈ recipe.variants,
      e.name = v.name ∧
      ∃ c ∈ v.tarballs, c.arch = arch_name ∧ e = project_tarball v.name c ∧
        ∀ t ∈ v.tarballs, t.arch = arch_name → t.date ≤ c.date) ∧
    List.Sorted name_asc out ∧
    (find_variant_candidates false "x86_64" example_recipe).toOption =
      some [project_tarball "Core" ⟨"amd64", "2023-02-01", 2, 2, "q", "t"⟩] ∧
    (project_tarball "Core" ⟨"amd64", "2023-02-01", 2, 2, "q", "t"⟩).name = "Core" ∧
    (project_tarball "Core" ⟨"amd64", "2023-02-01", 2, 2, "q", "t"⟩).date = "2023-02-01" := by
  unfold find_variant_candidates at hout
  rw [harch] at hout
  injection hout with hout
  refine ⟨?_, ?_, by decide, by decide, by decide⟩
  · intro e he
    have he' : e ∈ (recipe.variants.filter (variant_keep is_retro)).filterMap
        (variant_candidate arch_name) := by
      rw [← hout] at he
      exact (List.perm_insertionSort name_asc _).subset he
    obtain ⟨v, hv, hcand⟩ := List.mem_filterMap.mp he'
    obtain ⟨c, hc, hcarch, hproj, hmax⟩ := variant_candidate_some arch_name v e hcand
    exact ⟨v, (List.mem_filter.mp hv).1, variant_candidate_name arch_name v e hcand,
      c, hc, hcarch, hproj, hmax⟩
  · rw [← hout]
    exact List.sorted_insertionSort name_asc _

/-- Witness for C3 at the spec's own example recipe. -/
theorem find_variant_candidates_newest_witness :
    (∀ e ∈ [project_tarball "Core" ⟨"amd64", "2023-02-01", 2, 2, "q", "t"⟩],
      ∃ v ∈ example_recipe.variants,
      e.name = v.name ∧
      ∃ c ∈ v.tarballs, c.arch = "amd64" ∧ e = project_tarball v.name c ∧
        ∀ t ∈ v.tarballs, t.arch = "amd64" → t.date ≤ c.date) ∧
    List.Sorted name_asc [project_tarball "Core" ⟨"amd64", "2023-02-01", 2, 2, "q", "t"⟩] ∧
    (find_variant_candidates false "x86_64" example_recipe).toOption =
      some [project_tarball "Core" ⟨"amd64", "2023-02-01", 2, 2, "q", "t"⟩] ∧
    (project_tarball "Core" ⟨"amd64", "2023-02-01", 2, 2, "q", "t"⟩).name = "Core" ∧
    (project_tarball "Core" ⟨"amd64", "2023-02-01", 2, 2, "q", "t"⟩).date = "2023-02-01" :=
  find_variant_candidates_newest false "x86_64" "amd64" example_recipe rfl
    [project_tarball "Core" ⟨"amd64", "2023-02-01", 2, 2, "q", "t"⟩] (by rfl)

/-! ### Theorems about the MirrorBenchmark claim -/

lemma scores_eq_survivors_map (mirrors : List Mirror) (results : List (Option ℚ)) :
    speedtest_mirror_scores mirrors results =
      (survivors mirrors results).map fun q => (q.1.loc_tr, q.2) := by
  unfold speedtest_mirror_scores survivors
  induction mirrors.zip results with
  | nil => rfl
  | cons p t ih =>
    obtain ⟨m, o⟩ := p
    cases o with
    | none => simpa using ih
    | some s => simpa using ih

lemma find_loc_tr_self (mirrors : List Mirror)
    (hnd : (mirrors.map Mirror.loc_tr).Nodup) (m : Mirror) (hm : m ∈ mirrors) :
    (mirrors.find? fun x => x.loc_tr == m.loc_tr) = some m := by
  induction mirrors with
  | nil => cases hm
  | cons a t ih =>
    rw [List.map_cons, List.nodup_cons] at hnd
    rcases List.mem_cons.mp hm with rfl | hmt
    · exact List.find?_cons_of_pos t (by simp)
    · have hne : (a.loc_tr == m.loc_tr) = false := by
        simp only [beq_eq_false_iff_ne, ne_eq]
        intro he
        exact hnd.1 (he ▸ List.mem_map_of_mem Mirror.loc_tr hmt)
      rw [List.find?_cons_of_neg t (by simp [hne])]
      exact ih hnd.2 hmt

lemma mirror_by_loc_tr_self (mirrors : List Mirror)
    (hnd : (mirrors.map Mirror.loc_tr).Nodup) (m : Mirror) (hm : m ∈ mirrors) :
    mirror_by_loc_tr mirrors m.loc_tr = m := by
  unfold mirror_by_loc_tr
  rw [find_loc_tr_self mirrors hnd m hm]
  rfl

lemma survivors_fst_mem (mirrors : List Mirror) (results : List (Option ℚ))
    (q : Mirror × ℚ) (hq : q ∈ survivors mirrors results) : q.1 ∈ mirrors := by
  unfold survivors at hq
  obtain ⟨p, hp, he⟩ := List.mem_filterMap.mp hq
  obtain ⟨m, o⟩ := p
  cases o with
  | none => cases he
  | some s =>
    injection he with he
    rw [← he]
    exact (List.of_mem_zip hp).1

lemma filterMap_snd_fst_eq_filter (l : List (Mirror × Option ℚ)) :
    ((l.filterMap fun p => p.2.map fun score => (p.1, score)).map Prod.fst) =
      ((l.filter fun p => p.2.isSome).map Prod.fst) := by
  induction l with
  | nil => rfl
  | cons p t ih =>
    obtain ⟨m, o⟩ := p
    cases o with
    | none => simpa using ih
    | some s => simpa using ih

lemma survivors_map_fst_sublist (mirrors : List Mirror) (results : List (Option ℚ))
    (hlen : results.length = mirrors.length) :
    ((survivors mirrors results).map Prod.fst).Sublist mirrors := by
  unfold survivors
  rw [filterMap_snd_fst_eq_filter]
  have h := (List.filter_sublist (l := mirrors.zip results)
    (p := fun p => p.2.isSome)).map Prod.fst
  rwa [List.map_fst_zip mirrors results (le_of_eq hlen.symm)] at h

lemma survivors_length_eq_countP (mirrors : List Mirror) (results : List (Option ℚ))
    (hlen : results.length = mirrors.length) :
    (survivors mirrors results).length = results.countP Option.isSome := by
  unfold survivors
  induction mirrors generalizing results with
  | nil =>
    cases results with
    | nil => rfl
    | cons o t => simp at hlen
  | cons m mt ih =>
    cases results with
    | nil => simp at hlen
    | cons o rt =>
      rw [List.zip_cons_cons, List.filterMap_cons]
      cases o with
      | none =>
        rw [List.countP_cons_of_neg Option.isSome rt (by simp)]
        exact ih rt (by simpa using hlen)
      | some s =>
        rw [List.countP_cons_of_pos Option.isSome rt (by simp)]
        have h := ih rt (by simpa using hlen)
        simpa using h

/-- The record-recovery map sends the sorted score pairs back to the original
surviving mirror records, as a permutation, when the join keys are unique. -/
lemma speedtest_pairs_perm (mirrors : List Mirror) (results : List (Option ℚ))
    (hnd : (mirrors.map Mirror.loc_tr).Nodup) :
    (((List.insertionSort score_asc (speedtest_mirror_scores mirrors results)).map
      fun p => (mirror_by_loc_tr mirrors p.1, p.2)).Perm (survivors mirrors results)) := by
  rw [scores_eq_survivors_map]
  have hperm := (List.perm_insertionSort score_asc
    ((survivors mirrors results).map fun q => (q.1.loc_tr, q.2))).map
      (fun p : String × ℚ => (mirror_by_loc_tr mirrors p.1, p.2))
  rw [List.map_map] at hperm
  have h1 : ∀ q ∈ survivors mirrors results,
      ((fun p : String × ℚ => (mirror_by_loc_tr mirrors p.1, p.2)) ∘
        fun q : Mirror × ℚ => (q.1.loc_tr, q.2)) q = q := by
    intro q hq
    show (mirror_by_loc_tr mirrors q.1.loc_tr, q.2) = q
    rw [mirror_by_loc_tr_self mirrors hnd q.1 (survivors_fst_mem mirrors results q hq)]
  rwa [List.map_congr_left h1, List.map_id'] at hperm

/-- C1 (amended): provided the mirrors' localized-location join keys
(`loc_tr`) are pairwise distinct, `speedtest_mirrors` applied to probe
outcomes with M successes returns exactly the M surviving original records,
without duplication or fabrication, ordered ascending by measured probe
time; without distinctness the claim fails, see `speedtest_mirrors_dup_cx`. -/
theorem speedtest_mirrors_sorted_survivors
    (mirrors : List Mirror) (results : List (Option ℚ))
    (hlen : results.length = mirrors.length)
    (hnd : (mirrors.map Mirror.loc_tr).Nodup) :
    ∃ pairs : List (Mirror × ℚ),
      speedtest_mirrors mirrors results = pairs.map Prod.fst ∧
      pairs.Perm (survivors mirrors results) ∧
      List.Sorted (· ≤ ·) (pairs.map Prod.snd) ∧
      (speedtest_mirrors mirrors results).Nodup ∧
      (∀ m ∈ speedtest_mirrors mirrors results, m ∈ mirrors) ∧
      (speedtest_mirrors mirrors results).length = results.countP Option.isSome := by
  have hout : speedtest_mirrors mirrors results =
      ((List.insertionSort score_asc (speedtest_mirror_scores mirrors results)).map
        fun p => (mirror_by_loc_tr mirrors p.1, p.2)).map Prod.fst := by
    unfold speedtest_mirrors
    rw [List.map_map]
    rfl
  have hperm := speedtest_pairs_perm mirrors results hnd
  refine ⟨(List.insertionSort score_asc (speedtest_mirror_scores mirrors results)).map
    (fun p => (mirror_by_loc_tr mirrors p.1, p.2)), hout, hperm, ?_, ?_, ?_, ?_⟩
  · rw [List.map_map]
    exact List.Pairwise.map _ (fun a b h => h)
      (List.sorted_insertionSort score_asc (speedtest_mirror_scores mirrors results))
  · rw [hout]
    refine ((hperm.map Prod.fst).nodup_iff).mpr ?_
    exact (survivors_map_fst_sublist mirrors results hlen).nodup
      (hnd.of_map Mirror.loc_tr)
  · intro m hm
    rw [hout] at hm
    obtain ⟨q, hq, hqm⟩ := List.mem_map.mp ((hperm.map Prod.fst).mem_iff.mp hm)
    rw [← hqm]
    exact survivors_fst_mem mirrors results q hq
  · rw [hout, List.length_map, hperm.length_eq]
    exact survivors_length_eq_countP mirrors results hlen

/-- Witness for C1 at two mirrors with distinct `loc_tr`, both passing. -/
theorem speedtest_mirrors_sorted_survivors_witness :
    ∃ pairs : List (Mirror × ℚ),
      speedtest_mirrors [⟨"m1", "m1", "locA", "A", "http://a"⟩,
          ⟨"m2", "m2", "locB", "B", "http://b"⟩] [some 2, some 1] = pairs.map Prod.fst ∧
      pairs.Perm (survivors [⟨"m1", "m1", "locA", "A", "http://a"⟩,
          ⟨"m2", "m2", "locB", "B", "http://b"⟩] [some 2, some 1]) ∧
      List.Sorted (· ≤ ·) (pairs.map Prod.snd) ∧
      (speedtest_mirrors [⟨"m1", "m1", "locA", "A", "http://a"⟩,
          ⟨"m2", "m2", "locB", "B", "http://b"⟩] [some 2, some 1]).Nodup ∧
      (∀ m ∈ speedtest_mirrors [⟨"m1", "m1", "locA", "A", "http://a"⟩,
          ⟨"m2", "m2", "locB", "B", "http://b"⟩] [some 2, some 1],
        m ∈ [⟨"m1", "m1", "locA", "A", "http://a"⟩,
          ⟨"m2", "m2", "locB", "B", "http://b"⟩]) ∧
      (speedtest_mirrors [⟨"m1", "m1", "locA", "A", "http://a"⟩,
          ⟨"m2", "m2", "locB", "B", "http://b"⟩] [some 2, some 1]).length =
        [some (2 : ℚ), some 1].countP Option.isSome :=
  speedtest_mirrors_sorted_survivors
    [⟨"m1", "m1", "locA", "A", "http://a"⟩, ⟨"m2", "m2", "locB", "B", "http://b"⟩]
    [some 2, some 1] (by decide) (by decide)

def dup_mirror_a : Mirror := ⟨"m1", "m1", "locA", "X", "http://a"⟩

def dup_mirror_b : Mirror := ⟨"m2", "m2", "locB", "X", "http://b"⟩

/-- Counterexample for C1 as stated: two distinct mirrors sharing the
`loc_tr` join key "X" both pass the probe (M = 2), yet the result
duplicates the first mirror and silently drops the second. -/
theorem speedtest_mirrors_dup_cx :
    speedtest_mirrors [dup_mirror_a, dup_mirror_b] [some 2, some 1] =
      [dup_mirror_a, dup_mirror_a] ∧
    ¬ (speedtest_mirrors [dup_mirror_a, dup_mirror_b] [some 2, some 1]).Nodup ∧
    dup_mirror_b ∉ speedtest_mirrors [dup_mirror_a, dup_mirror_b] [some 2, some 1] := by
  refine ⟨by decide, by decide, by decide⟩

end AoscDK
